import Mathlib

/-!
Verification of the `prompt-any` / `pic_prompt` package.

The repository ships only `src/pic_prompt/__init__.py`; the core modules
(`pic_prompt.core`, `pic_prompt.pic_prompt`, `pic_prompt.images`) are not
present in the source tree, so the registry, downloader, transcoding and
builder below are modelled from the specification's words, while the
package import wiring (`__version__`, `__all__`) is embedded directly from
`src/pic_prompt/__init__.py`.
-/

set_option autoImplicit false

namespace PicPromptSpec

/-- Modelled from the spec (section 7 taxonomy): the error hierarchy
consumed as failure signals: ConfigurationError, ImageProcessingError
(attached to a source reference), ProviderError (attached to a source
reference), PromptBuilderError. -/
inductive PromptError where
  | configurationError (detail : String)
  | imageProcessingError (source : String) (detail : String)
  | providerError (source : String) (detail : String)
  | promptBuilderError (detail : String)
  deriving DecidableEq, Repr

/-- Modelled from the spec (section 3): ImageData is a value object with a
source reference, raw bytes once fetched, a MIME type, and lazily
populated per-provider encoded variants. Bytes are modelled as natural
numbers, encoded text as a list of characters. -/
structure ImageData where
  source : String
  raw_bytes : Option (List Nat)
  mime_type : Option String
  encoded_variants : List (String × List Char)
  deriving DecidableEq, Repr

/-- Modelled from the spec (section 4.2, missing module `pic_prompt.images`):
the downloader fetches raw bytes and a MIME type for a source reference.
The external world may change between attempts (an unreachable source can
become reachable), so `fetch` is additionally indexed by the attempt
number for that source; a failure carries a diagnostic string. -/
structure ImageDownloader where
  fetch : String → Nat → Except String (List Nat × String)

/-- Modelled from the spec (sections 3 and 4.1, missing module
`pic_prompt.images`): the registry state is a cache mapping source
references to ready ImageData entries, together with a log of every
downloader invocation (one entry per fetch, recording the source), used to
state the at-most-one-fetch properties. Failed resolutions are not kept in
the cache. -/
structure RegState where
  cache : List (String × ImageData)
  fetchLog : List String
  deriving DecidableEq, Repr

/-- Lookup of a source reference in an association list keyed by strings. -/
def lookupSrc {α : Type} (src : String) : List (String × α) → Option α
  | [] => none
  | (s, d) :: rest => if s = src then some d else lookupSrc src rest

/-- Number of fetch-log entries for one source reference. -/
def countSrc (src : String) : List String → Nat
  | [] => 0
  | s :: rest => (if s = src then 1 else 0) + countSrc src rest

/-- The ImageData entry built from a successful fetch. -/
def mkImageData (src : String) (bytes : List Nat) (mime : String) : ImageData :=
  { source := src, raw_bytes := some bytes, mime_type := some mime,
    encoded_variants := [] }

/-- Modelled from the spec (section 4.1, missing module
`pic_prompt.images`): `resolve` returns the cached entry if present;
otherwise it invokes the downloader, stores the result on success and
returns it, and on failure raises an ImageProcessingError-class failure
without caching anything for that source. The updated registry state is
returned alongside the result. -/
def resolve (dl : ImageDownloader) (st : RegState) (src : String) :
    Except PromptError ImageData × RegState :=
  match lookupSrc src st.cache with
  | some d => (.ok d, st)
  | none =>
    let attempt := countSrc src st.fetchLog
    let st1 : RegState := { st with fetchLog := st.fetchLog ++ [src] }
    match dl.fetch src attempt with
    | .ok (bytes, mime) =>
      let d := mkImageData src bytes mime
      (.ok d, { st1 with cache := (src, d) :: st1.cache })
    | .error msg => (.error (.imageProcessingError src msg), st1)

/-- Modelled from the spec (section 4.1): `get` is the non-fetching lookup. -/
def RegState.get (st : RegState) (src : String) : Option ImageData :=
  lookupSrc src st.cache

/-- Sequentially resolving the same source N times (N at least 1),
threading the registry state, returning the last call's result. -/
def resolveN (dl : ImageDownloader) (src : String) :
    Nat → RegState → Except PromptError ImageData × RegState
  | 0, st => (.error (.imageProcessingError src "never resolved"), st)
  | 1, st => resolve dl st src
  | n + 2, st => resolveN dl src (n + 1) (resolve dl st src).2

theorem lookupSrc_cons_self {α : Type} (src : String) (d : α)
    (rest : List (String × α)) : lookupSrc src ((src, d) :: rest) = some d := by
  simp [lookupSrc]

theorem resolve_cached (dl : ImageDownloader) (st : RegState) (src : String)
    (d : ImageData) (h : lookupSrc src st.cache = some d) :
    resolve dl st src = (.ok d, st) := by
  simp [resolve, h]

theorem resolveN_cached (dl : ImageDownloader) (st : RegState) (src : String)
    (d : ImageData) (h : lookupSrc src st.cache = some d) :
    ∀ n : Nat, resolveN dl src (n + 1) st = (.ok d, st) := by
  intro n
  induction n with
  | zero => simp [resolveN, resolve_cached dl st src d h]
  | succ k ih =>
    have hres : resolve dl st src = (.ok d, st) := resolve_cached dl st src d h
    show resolveN dl src (k + 1) (resolve dl st src).2 = (.ok d, st)
    rw [hres]
    exact ih

theorem countSrc_append (src : String) (l1 l2 : List String) :
    countSrc src (l1 ++ l2) = countSrc src l1 + countSrc src l2 := by
  induction l1 with
  | nil => simp [countSrc]
  | cons s rest ih => simp [countSrc, ih]; omega

/-- The state produced by a successful first fetch for `src`. -/
def afterFetch (st : RegState) (src : String) (bytes : List Nat)
    (mime : String) : RegState :=
  { cache := (src, mkImageData src bytes mime) :: st.cache,
    fetchLog := st.fetchLog ++ [src] }

theorem resolve_miss_ok (dl : ImageDownloader) (st : RegState) (src : String)
    (bytes : List Nat) (mime : String)
    (hmiss : lookupSrc src st.cache = none)
    (hfetch : dl.fetch src (countSrc src st.fetchLog) = .ok (bytes, mime)) :
    resolve dl st src = (.ok (mkImageData src bytes mime), afterFetch st src bytes mime) := by
  simp [resolve, hmiss, hfetch, afterFetch]

/-- C1 helper: after one successful resolve, the entry for `src` is cached. -/
theorem afterFetch_lookup (st : RegState) (src : String) (bytes : List Nat)
    (mime : String) :
    lookupSrc src (afterFetch st src bytes mime).cache
      = some (mkImageData src bytes mime) := by
  simp [afterFetch, lookupSrc_cons_self]

/-- C1: for an uncached source whose fetch succeeds, resolving it N times
(N at least 1) from one registry triggers exactly one underlying fetch:
the first call invokes the downloader and stores the result, and every
later call returns the cached ImageData with the state unchanged, so the
fetch log for that source grows by exactly one. -/
theorem resolveN_single_fetch (dl : ImageDownloader) (st : RegState)
    (src : String) (bytes : List Nat) (mime : String) (N : Nat)
    (hmiss : lookupSrc src st.cache = none)
    (hfetch : dl.fetch src (countSrc src st.fetchLog) = .ok (bytes, mime))
    (hN : 1 ≤ N) :
    resolveN dl src N st = (.ok (mkImageData src bytes mime), afterFetch st src bytes mime)
      ∧ countSrc src (afterFetch st src bytes mime).fetchLog
          = countSrc src st.fetchLog + 1 := by
  constructor
  · obtain ⟨n, rfl⟩ : ∃ n, N = n + 1 := ⟨N - 1, by omega⟩
    cases n with
    | zero => simpa [resolveN] using resolve_miss_ok dl st src bytes mime hmiss hfetch
    | succ k =>
      show resolveN dl src (k + 1) (resolve dl st src).2 = _
      rw [resolve_miss_ok dl st src bytes mime hmiss hfetch]
      exact resolveN_cached dl _ src _ (afterFetch_lookup st src bytes mime) k
  · simp [afterFetch, countSrc_append, countSrc]

/-- Witness for C1: a concrete downloader, a fresh registry and three
resolve calls for the same source, with exactly one fetch recorded. -/
theorem resolveN_single_fetch_witness :
    resolveN ⟨fun _ _ => .ok ([7, 7, 9], "image/png")⟩ "http://a" 3 ⟨[], []⟩
        = (.ok (mkImageData "http://a" [7, 7, 9] "image/png"),
           afterFetch ⟨[], []⟩ "http://a" [7, 7, 9] "image/png")
      ∧ countSrc "http://a" (afterFetch ⟨[], []⟩ "http://a" [7, 7, 9] "image/png").fetchLog
          = countSrc "http://a" ([] : List String) + 1 :=
  resolveN_single_fetch ⟨fun _ _ => .ok ([7, 7, 9], "image/png")⟩ ⟨[], []⟩
    "http://a" [7, 7, 9] "image/png" 3 rfl rfl (by omega)

/-- C8: when the fetch for an uncached source fails, the registry raises an
ImageProcessingError-class failure, does not cache the failure (the source
stays absent from the cache), records the attempt, and a subsequent
resolve call for the same source retries the fetch: the fetch log grows
again, and if the next attempt succeeds the result is cached and returned. -/
theorem resolve_failure_not_cached (dl : ImageDownloader) (st : RegState)
    (src : String) (msg : String)
    (hmiss : lookupSrc src st.cache = none)
    (hfail : dl.fetch src (countSrc src st.fetchLog) = .error msg) :
    (resolve dl st src).1 = .error (.imageProcessingError src msg)
      ∧ lookupSrc src ((resolve dl st src).2).cache = none
      ∧ countSrc src ((resolve dl st src).2).fetchLog = countSrc src st.fetchLog + 1
      ∧ countSrc src ((resolve dl ((resolve dl st src).2) src).2).fetchLog
          = countSrc src st.fetchLog + 2
      ∧ ∀ bytes mime,
          dl.fetch src (countSrc src st.fetchLog + 1) = .ok (bytes, mime) →
            (resolve dl ((resolve dl st src).2) src).1
                = .ok (mkImageData src bytes mime)
              ∧ lookupSrc src ((resolve dl ((resolve dl st src).2) src).2).cache
                  = some (mkImageData src bytes mime) := by
  have hres : resolve dl st src
      = (.error (.imageProcessingError src msg),
         { st with fetchLog := st.fetchLog ++ [src] }) := by
    simp [resolve, hmiss, hfail]
  refine ⟨by rw [hres], by rw [hres]; exact hmiss, by rw [hres]; simp [countSrc_append, countSrc], ?_, ?_⟩
  · rw [hres]
    simp only [resolve, hmiss]
    have hcount : countSrc src (st.fetchLog ++ [src]) = countSrc src st.fetchLog + 1 := by
      simp [countSrc_append, countSrc]
    cases hf2 : dl.fetch src (countSrc src (st.fetchLog ++ [src])) with
    | ok p => simp [hcount, countSrc_append, countSrc]
    | error m2 => simp [hcount, countSrc_append, countSrc]
  · intro bytes mime hok
    rw [hres]
    have hcount : countSrc src (st.fetchLog ++ [src]) = countSrc src st.fetchLog + 1 := by
      simp [countSrc_append, countSrc]
    have : resolve dl { st with fetchLog := st.fetchLog ++ [src] } src
        = (.ok (mkImageData src bytes mime),
           afterFetch { st with fetchLog := st.fetchLog ++ [src] } src bytes mime) := by
      apply resolve_miss_ok
      · exact hmiss
      · rw [hcount]; exact hok
    rw [this]
    exact ⟨rfl, afterFetch_lookup _ src bytes mime⟩

/-- Witness for C8: a downloader that fails on the first attempt for a
source and succeeds on the second; the failure is raised and not cached,
and the retry fetches again and caches the result. -/
theorem resolve_failure_not_cached_witness :
    ((resolve ⟨fun _ n => if n = 0 then .error "unreachable" else .ok ([1], "image/png")⟩
        ⟨[], []⟩ "http://b").1 = .error (.imageProcessingError "http://b" "unreachable"))
      ∧ lookupSrc "http://b"
          ((resolve ⟨fun _ n => if n = 0 then .error "unreachable" else .ok ([1], "image/png")⟩
            ⟨[], []⟩ "http://b").2).cache = none := by
  have h := resolve_failure_not_cached
    ⟨fun _ n => if n = 0 then .error "unreachable" else .ok ([1], "image/png")⟩
    ⟨[], []⟩ "http://b" "unreachable" rfl rfl
  exact ⟨h.1, h.2.1⟩

/-- Modelled from the spec (section 3, missing module `pic_prompt.core`):
the enumerated message roles. -/
inductive MessageType where
  | system
  | user
  | assistant
  deriving DecidableEq, Repr

/-- Modelled from the spec (section 3): a content part is either inline
text or an image source reference. -/
inductive ContentPart where
  | text (s : String)
  | image (source : String)
  deriving DecidableEq, Repr

/-- Modelled from the spec (section 3, missing module `pic_prompt.core`):
one conversation turn, a role with an ordered sequence of content parts. -/
structure PromptMessage where
  role : MessageType
  parts : List ContentPart
  deriving DecidableEq, Repr

/-- Modelled from the spec (sections 3 and 4.3, missing module
`pic_prompt.core`): the immutable image configuration: provider identity,
byte-size limit, pixel-dimension limit, accepted MIME types, the
transcoding paths available (source MIME mapped to an accepted target),
and whether downscaling is an allowed strategy. -/
structure ImageConfig where
  provider : String
  max_bytes : Nat
  max_dim : Nat
  accepted_mime_types : List String
  transcode_map : List (String × String)
  allow_downscale : Bool
  deriving DecidableEq, Repr

/-- Modelled from the spec: the decoded form of an image's raw bytes:
pixel dimensions plus pixel data. -/
structure RawImage where
  width : Nat
  height : Nat
  pixels : List Nat
  deriving DecidableEq, Repr

/-- Serialization of a decoded image back to raw bytes: width, height,
then the pixel data. -/
def RawImage.toBytes (img : RawImage) : List Nat :=
  img.width :: img.height :: img.pixels

/-- Decoding raw bytes into an image: the first two bytes are the
dimensions, the rest the pixels; fewer than two bytes are undecodable. -/
def parseImage : List Nat → Option RawImage
  | w :: h :: px => some ⟨w, h, px⟩
  | _ => none

/-- Modelled from the spec (section 4.3): downscaling clamps each pixel
dimension to the configured limit and resamples the pixel data to the
reduced size. -/
def downscale (img : RawImage) (maxd : Nat) : RawImage :=
  { width := min img.width maxd,
    height := min img.height maxd,
    pixels := img.pixels.take (min img.width maxd * min img.height maxd) }

/-- One hexadecimal digit character for a value below 16. -/
def hexDigit (n : Nat) : Char :=
  if n < 10 then Char.ofNat (48 + n) else Char.ofNat (87 + n)

/-- The value of one hexadecimal digit character, if any. -/
def hexVal (c : Char) : Option Nat :=
  if 48 ≤ c.toNat ∧ c.toNat ≤ 57 then some (c.toNat - 48)
  else if 97 ≤ c.toNat ∧ c.toNat ≤ 102 then some (c.toNat - 87)
  else none

/-- Modelled from the spec (section 4.3): the provider text encoding of
binary content, modelled as base16: each byte becomes two hexadecimal
digit characters. It is lossless on byte values below 256. -/
def encodeBytes : List Nat → List Char
  | [] => []
  | b :: rest => hexDigit (b / 16) :: hexDigit (b % 16) :: encodeBytes rest

/-- The decoder matching `encodeBytes`: consumes pairs of hexadecimal
digits; fails on odd length or a non-digit character. -/
def decodeBytes : List Char → Option (List Nat)
  | [] => some []
  | c1 :: c2 :: rest =>
    match hexVal c1, hexVal c2, decodeBytes rest with
    | some h, some l, some bs => some ((h * 16 + l) :: bs)
    | _, _, _ => none
  | _ => none

/-- Modelled from the spec (section 4.3, missing module
`pic_prompt.images`): `encode_for` produces the provider representation of
the image. It fails with an ImageProcessingError on missing or
undecodable bytes, with a ProviderError when the MIME type is not
accepted and no transcoding path exists, applies downscaling when the
pixel dimensions exceed the limit and downscaling is allowed (failing
with a ProviderError otherwise), enforces the byte-size limit, and
finally emits the base16 text encoding of the (possibly downscaled)
bytes. -/
def ImageData.encode_for (d : ImageData) (cfg : ImageConfig) :
    Except PromptError (List Char) :=
  match d.raw_bytes with
  | none => .error (.imageProcessingError d.source "no raw bytes")
  | some bytes =>
    match d.mime_type with
    | none => .error (.imageProcessingError d.source "no mime type")
    | some mime =>
      match parseImage bytes with
      | none => .error (.imageProcessingError d.source "undecodable bytes")
      | some img =>
        if mime ∈ cfg.accepted_mime_types ∨ (lookupSrc mime cfg.transcode_map).isSome then
          if img.width ≤ cfg.max_dim ∧ img.height ≤ cfg.max_dim then
            if (RawImage.toBytes img).length ≤ cfg.max_bytes then
              .ok (encodeBytes img.toBytes)
            else .error (.imageProcessingError d.source "payload exceeds max byte size")
          else if cfg.allow_downscale then
            let img2 := downscale img cfg.max_dim
            if (RawImage.toBytes img2).length ≤ cfg.max_bytes then
              .ok (encodeBytes img2.toBytes)
            else .error (.imageProcessingError d.source "payload exceeds max byte size")
          else .error (.providerError d.source "dimensions exceed provider limit")
        else .error (.providerError d.source "unsupported format with no transcoding path")

theorem hexVal_hexDigit (n : Nat) (h : n < 16) : hexVal (hexDigit n) = some n := by
  interval_cases n <;> rfl

theorem decode_encode_bytes (bs : List Nat) (h : ∀ b ∈ bs, b < 256) :
    decodeBytes (encodeBytes bs) = some bs := by
  induction bs with
  | nil => rfl
  | cons b rest ih =>
    have hb : b < 256 := h b (List.mem_cons_self b rest)
    have hrest : decodeBytes (encodeBytes rest) = some rest :=
      ih fun x hx => h x (List.mem_cons_of_mem b hx)
    have h1 : hexVal (hexDigit (b / 16)) = some (b / 16) :=
      hexVal_hexDigit _ (by omega)
    have h2 : hexVal (hexDigit (b % 16)) = some (b % 16) :=
      hexVal_hexDigit _ (by omega)
    simp [encodeBytes, decodeBytes, h1, h2, hrest]
    omega

theorem parseImage_toBytes (bytes : List Nat) (img : RawImage)
    (h : parseImage bytes = some img) : img.toBytes = bytes := by
  match bytes, h with
  | w :: hgt :: px, h =>
    simp [parseImage] at h
    simp [← h, RawImage.toBytes]

/-- Modelled from the spec (section 6): one record of the provider
payload: a role together with a content array whose parts are inline text
or inline encoded image data. -/
inductive PayloadPart where
  | text (s : String)
  | image (encoded : List Char)
  deriving DecidableEq, Repr

/-- Modelled from the spec (section 6): one role+content record of the
provider-shaped payload. -/
structure PayloadMessage where
  role : MessageType
  content : List PayloadPart
  deriving DecidableEq, Repr

/-- Modelled from the spec (section 4.4): a failure surfaced by `build`,
the originating error with the index of the offending message attached. -/
structure BuildError where
  msgIndex : Nat
  error : PromptError
  deriving DecidableEq, Repr

/-- Modelled from the spec (section 4.4, missing module
`pic_prompt.pic_prompt`): building one content part at message index
`idx`: text passes through; an image reference is resolved via the
registry and transcoded via `encode_for`, failing fast with the
originating error and the message index on any failure. -/
def buildPart (dl : ImageDownloader) (cfg : ImageConfig) (idx : Nat)
    (st : RegState) : ContentPart → Except BuildError (PayloadPart × RegState)
  | .text s => .ok (.text s, st)
  | .image src =>
    match resolve dl st src with
    | (.error e, _) => .error ⟨idx, e⟩
    | (.ok d, st1) =>
      match d.encode_for cfg with
      | .error e => .error ⟨idx, e⟩
      | .ok enc => .ok (.image enc, st1)

/-- Building the content parts of one message in order, threading the
registry state and failing fast on the first error. -/
def buildParts (dl : ImageDownloader) (cfg : ImageConfig) (idx : Nat)
    (st : RegState) : List ContentPart → Except BuildError (List PayloadPart × RegState)
  | [] => .ok ([], st)
  | p :: ps =>
    match buildPart dl cfg idx st p with
    | .error e => .error e
    | .ok (pp, st1) =>
      match buildParts dl cfg idx st1 ps with
      | .error e => .error e
      | .ok (pps, st2) => .ok (pp :: pps, st2)

/-- Building the messages in caller order starting at message index `idx`,
threading the registry state and failing fast on the first error. -/
def buildFrom (dl : ImageDownloader) (cfg : ImageConfig) (idx : Nat)
    (st : RegState) : List PromptMessage → Except BuildError (List PayloadMessage × RegState)
  | [] => .ok ([], st)
  | m :: ms =>
    match buildParts dl cfg idx st m.parts with
    | .error e => .error e
    | .ok (pps, st1) =>
      match buildFrom dl cfg (idx + 1) st1 ms with
      | .error e => .error e
      | .ok (pms, st2) => .ok (⟨m.role, pps⟩ :: pms, st2)

/-- Modelled from the spec (sections 3 and 4.4, missing module
`pic_prompt.pic_prompt`): the builder owns an ordered message sequence and
the active image configuration; the registry is shared and passed in. -/
structure PicPrompt where
  messages : List PromptMessage
  config : ImageConfig
  deriving DecidableEq, Repr

/-- Modelled from the spec (section 4.4): `add_message` appends a message;
resolution is lazy, deferred to `build`. -/
def PicPrompt.add_message (p : PicPrompt) (m : PromptMessage) : PicPrompt :=
  { p with messages := p.messages ++ [m] }

/-- Modelled from the spec (section 4.4): `build` iterates the ordered
message sequence, resolves each image via the registry, transcodes it via
`encode_for`, and assembles the payload, failing fast on the first error;
the updated registry state is returned alongside the payload. -/
def PicPrompt.build (p : PicPrompt) (dl : ImageDownloader) (st : RegState) :
    Except BuildError (List PayloadMessage × RegState) :=
  buildFrom dl p.config 0 st p.messages

/-- Registry state `st2` subsumes `st1` when every cached entry of `st1`
is cached with the same value in `st2`. -/
def Subsumes (st2 st1 : RegState) : Prop :=
  ∀ s d, lookupSrc s st1.cache = some d → lookupSrc s st2.cache = some d

theorem Subsumes.refl (st : RegState) : Subsumes st st := fun _ _ h => h

theorem Subsumes.trans {st3 st2 st1 : RegState} (h32 : Subsumes st3 st2)
    (h21 : Subsumes st2 st1) : Subsumes st3 st1 :=
  fun s d h => h32 s d (h21 s d h)

theorem resolve_subsumes (dl : ImageDownloader) (st : RegState) (src : String) :
    Subsumes (resolve dl st src).2 st := by
  intro s d hd
  cases hl : lookupSrc src st.cache with
  | some d0 =>
    simp [resolve, hl]
    exact hd
  | none =>
    cases hf : dl.fetch src (countSrc src st.fetchLog) with
    | error m =>
      simp [resolve, hl, hf]
      exact hd
    | ok r =>
      obtain ⟨bytes, mime⟩ := r
      have hne : src ≠ s := by
        intro he
        rw [he] at hl
        rw [hl] at hd
        exact Option.noConfusion hd
      simp [resolve, hl, hf, lookupSrc, hne]
      exact hd

theorem resolve_ok_lookup (dl : ImageDownloader) (st stx : RegState)
    (src : String) (d : ImageData)
    (h : resolve dl st src = (.ok d, stx)) :
    lookupSrc src stx.cache = some d := by
  cases hl : lookupSrc src st.cache with
  | some d0 =>
    rw [resolve_cached dl st src d0 hl] at h
    simp at h
    rw [← h.2, ← h.1]
    exact hl
  | none =>
    cases hf : dl.fetch src (countSrc src st.fetchLog) with
    | error m => simp [resolve, hl, hf] at h
    | ok r =>
      obtain ⟨bytes, mime⟩ := r
      rw [resolve_miss_ok dl st src bytes mime hl hf] at h
      simp at h
      rw [← h.2, ← h.1]
      exact afterFetch_lookup st src bytes mime

theorem buildPart_subsumes (dl : ImageDownloader) (cfg : ImageConfig)
    (idx : Nat) (st sta : RegState) (p : ContentPart) (pp : PayloadPart)
    (h : buildPart dl cfg idx st p = .ok (pp, sta)) : Subsumes sta st := by
  cases p with
  | text s =>
    simp [buildPart] at h
    rw [← h.2]
    exact Subsumes.refl st
  | image src =>
    cases hres : resolve dl st src with
    | mk r stx =>
      cases r with
      | error e => simp [buildPart, hres] at h
      | ok d =>
        cases henc : d.encode_for cfg with
        | error e => simp [buildPart, hres, henc] at h
        | ok enc =>
          simp [buildPart, hres, henc] at h
          rw [← h.2]
          have := resolve_subsumes dl st src
          rw [hres] at this
          exact this

theorem buildParts_subsumes (dl : ImageDownloader) (cfg : ImageConfig)
    (idx : Nat) (ps : List ContentPart) :
    ∀ (st sta : RegState) (pps : List PayloadPart),
      buildParts dl cfg idx st ps = .ok (pps, sta) → Subsumes sta st := by
  induction ps with
  | nil =>
    intro st sta pps h
    simp [buildParts] at h
    rw [← h.2]
    exact Subsumes.refl st
  | cons p ps ih =>
    intro st sta pps h
    cases hbp : buildPart dl cfg idx st p with
    | error e => simp [buildParts, hbp] at h
    | ok r =>
      obtain ⟨pp, st1⟩ := r
      cases hps : buildParts dl cfg idx st1 ps with
      | error e => simp [buildParts, hbp, hps] at h
      | ok r2 =>
        obtain ⟨pps2, st2⟩ := r2
        simp [buildParts, hbp, hps] at h
        rw [← h.2]
        exact (ih st1 st2 pps2 hps).trans (buildPart_subsumes dl cfg idx st st1 p pp hbp)

theorem buildFrom_subsumes (dl : ImageDownloader) (cfg : ImageConfig)
    (ms : List PromptMessage) :
    ∀ (idx : Nat) (st sta : RegState) (pms : List PayloadMessage),
      buildFrom dl cfg idx st ms = .ok (pms, sta) → Subsumes sta st := by
  induction ms with
  | nil =>
    intro idx st sta pms h
    simp [buildFrom] at h
    rw [← h.2]
    exact Subsumes.refl st
  | cons m ms ih =>
    intro idx st sta pms h
    cases hbp : buildParts dl cfg idx st m.parts with
    | error e => simp [buildFrom, hbp] at h
    | ok r =>
      obtain ⟨pps, st1⟩ := r
      cases hms : buildFrom dl cfg (idx + 1) st1 ms with
      | error e => simp [buildFrom, hbp, hms] at h
      | ok r2 =>
        obtain ⟨pms2, st2⟩ := r2
        simp [buildFrom, hbp, hms] at h
        rw [← h.2]
        exact (ih (idx + 1) st1 st2 pms2 hms).trans
          (buildParts_subsumes dl cfg idx m.parts st st1 pps hbp)

theorem buildPart_rebuild (dl : ImageDownloader) (cfg : ImageConfig)
    (idx : Nat) (st sta st2 : RegState) (p : ContentPart) (pp : PayloadPart)
    (h : buildPart dl cfg idx st p = .ok (pp, sta))
    (hsub : Subsumes st2 sta) :
    buildPart dl cfg idx st2 p = .ok (pp, st2) := by
  cases p with
  | text s =>
    simp [buildPart] at h
    simp [buildPart, h.1]
  | image src =>
    cases hres : resolve dl st src with
    | mk r stx =>
      cases r with
      | error e => simp [buildPart, hres] at h
      | ok d =>
        cases henc : d.encode_for cfg with
        | error e => simp [buildPart, hres, henc] at h
        | ok enc =>
          simp [buildPart, hres, henc] at h
          have hlook : lookupSrc src sta.cache = some d := by
            rw [← h.2]
            exact resolve_ok_lookup dl st stx src d hres
          have hlook2 : lookupSrc src st2.cache = some d := hsub src d hlook
          simp [buildPart, resolve_cached dl st2 src d hlook2, henc, ← h.1]

theorem buildParts_rebuild (dl : ImageDownloader) (cfg : ImageConfig)
    (idx : Nat) (ps : List ContentPart) :
    ∀ (st sta st2 : RegState) (pps : List PayloadPart),
      buildParts dl cfg idx st ps = .ok (pps, sta) →
      Subsumes st2 sta →
      buildParts dl cfg idx st2 ps = .ok (pps, st2) := by
  induction ps with
  | nil =>
    intro st sta st2 pps h hsub
    simp [buildParts] at h
    simp [buildParts, h.1]
  | cons p ps ih =>
    intro st sta st2 pps h hsub
    cases hbp : buildPart dl cfg idx st p with
    | error e => simp [buildParts, hbp] at h
    | ok r =>
      obtain ⟨pp, st1⟩ := r
      cases hps : buildParts dl cfg idx st1 ps with
      | error e => simp [buildParts, hbp, hps] at h
      | ok r2 =>
        obtain ⟨pps2, stb⟩ := r2
        simp [buildParts, hbp, hps] at h
        have hsub2 : Subsumes st2 stb := by rw [h.2]; exact hsub
        have hsubst1 : Subsumes st2 st1 :=
          hsub2.trans (buildParts_subsumes dl cfg idx ps st1 stb pps2 hps)
        have hp2 : buildPart dl cfg idx st2 p = .ok (pp, st2) :=
          buildPart_rebuild dl cfg idx st st1 st2 p pp hbp hsubst1
        have hps2 : buildParts dl cfg idx st2 ps = .ok (pps2, st2) :=
          ih st1 stb st2 pps2 hps hsub2
        simp [buildParts, hp2, hps2, ← h.1]

theorem buildFrom_rebuild (dl : ImageDownloader) (cfg : ImageConfig)
    (ms : List PromptMessage) :
    ∀ (idx : Nat) (st sta st2 : RegState) (pms : List PayloadMessage),
      buildFrom dl cfg idx st ms = .ok (pms, sta) →
      Subsumes st2 sta →
      buildFrom dl cfg idx st2 ms = .ok (pms, st2) := by
  induction ms with
  | nil =>
    intro idx st sta st2 pms h hsub
    simp [buildFrom] at h
    simp [buildFrom, h.1]
  | cons m ms ih =>
    intro idx st sta st2 pms h hsub
    cases hbp : buildParts dl cfg idx st m.parts with
    | error e => simp [buildFrom, hbp] at h
    | ok r =>
      obtain ⟨pps, st1⟩ := r
      cases hms : buildFrom dl cfg (idx + 1) st1 ms with
      | error e => simp [buildFrom, hbp, hms] at h
      | ok r2 =>
        obtain ⟨pms2, stb⟩ := r2
        simp [buildFrom, hbp, hms] at h
        have hsub2 : Subsumes st2 stb := by rw [h.2]; exact hsub
        have hsubst1 : Subsumes st2 st1 :=
          hsub2.trans (buildFrom_subsumes dl cfg ms (idx + 1) st1 stb pms2 hms)
        have hp2 : buildParts dl cfg idx st2 m.parts = .ok (pps, st2) :=
          buildParts_rebuild dl cfg idx m.parts st st1 st2 pps hbp hsubst1
        have hms2 : buildFrom dl cfg (idx + 1) st2 ms = .ok (pms2, st2) :=
          ih (idx + 1) st1 stb st2 pms2 hms hsub2
        simp [buildFrom, hp2, hms2, ← h.1]

/-- C3: building is a pure, repeatable function of messages, registry
cache state and config: a successful build leaves the registry warm, and
rebuilding the same messages against the warm registry yields the
identical payload value and the identical final state. -/
theorem build_repeatable (p : PicPrompt) (dl : ImageDownloader)
    (st st1 : RegState) (payload : List PayloadMessage)
    (h : p.build dl st = .ok (payload, st1)) :
    p.build dl st1 = .ok (payload, st1) :=
  buildFrom_rebuild dl p.config p.messages 0 st st1 st1 payload h (Subsumes.refl st1)

/-- A concrete configuration used by the concrete examples below. -/
def exCfg : ImageConfig :=
  { provider := "openai", max_bytes := 100, max_dim := 10,
    accepted_mime_types := ["image/png"], transcode_map := [],
    allow_downscale := true }

/-- A concrete downloader that always succeeds with a fixed 2-by-2 image. -/
def exDl : ImageDownloader :=
  ⟨fun _ _ => .ok ([2, 2, 9, 8, 7, 6], "image/png")⟩

/-- The spec's three-message example: system, user with text plus image,
assistant. -/
def exMsgs : List PromptMessage :=
  [⟨.system, [.text "you are helpful"]⟩,
   ⟨.user, [.text "look", .image "http://img"]⟩,
   ⟨.assistant, [.text "ok"]⟩]

/-- The builder holding the example messages and configuration. -/
def exPrompt : PicPrompt := ⟨exMsgs, exCfg⟩

/-- The payload the example build produces. -/
def exPayload : List PayloadMessage :=
  [⟨.system, [.text "you are helpful"]⟩,
   ⟨.user, [.text "look", .image (encodeBytes [2, 2, 9, 8, 7, 6])]⟩,
   ⟨.assistant, [.text "ok"]⟩]

/-- The warm registry state after the example build. -/
def exWarm : RegState :=
  afterFetch ⟨[], []⟩ "http://img" [2, 2, 9, 8, 7, 6] "image/png"

/-- Witness for C3: the concrete three-message build, rebuilt against the
warm registry, returns the identical payload and state. -/
theorem build_repeatable_witness :
    exPrompt.build exDl exWarm = .ok (exPayload, exWarm) :=
  build_repeatable exPrompt exDl ⟨[], []⟩ exWarm exPayload (by rfl)

/-- A content part and a payload part have the same shape when text maps
to the same text and an image reference maps to inline image content. -/
def partShape : ContentPart → PayloadPart → Prop
  | .text s, .text s2 => s = s2
  | .image _, .image _ => True
  | _, _ => False

/-- A message corresponds to a payload record when the roles agree and the
content parts correspond pointwise, in order. -/
def msgShape (m : PromptMessage) (pm : PayloadMessage) : Prop :=
  pm.role = m.role ∧ List.Forall₂ partShape m.parts pm.content

theorem buildPart_shape (dl : ImageDownloader) (cfg : ImageConfig)
    (idx : Nat) (st sta : RegState) (pt : ContentPart) (pp : PayloadPart)
    (h : buildPart dl cfg idx st pt = .ok (pp, sta)) : partShape pt pp := by
  cases pt with
  | text s =>
    simp [buildPart] at h
    rw [← h.1]
    simp [partShape]
  | image src =>
    cases hres : resolve dl st src with
    | mk r stx =>
      cases r with
      | error e => simp [buildPart, hres] at h
      | ok d =>
        cases henc : d.encode_for cfg with
        | error e => simp [buildPart, hres, henc] at h
        | ok enc =>
          simp [buildPart, hres, henc] at h
          rw [← h.1]
          simp [partShape]

theorem buildParts_shape (dl : ImageDownloader) (cfg : ImageConfig)
    (idx : Nat) (ps : List ContentPart) :
    ∀ (st sta : RegState) (pps : List PayloadPart),
      buildParts dl cfg idx st ps = .ok (pps, sta) →
      List.Forall₂ partShape ps pps := by
  induction ps with
  | nil =>
    intro st sta pps h
    simp [buildParts] at h
    rw [h.1]
    exact List.Forall₂.nil
  | cons p ps ih =>
    intro st sta pps h
    cases hbp : buildPart dl cfg idx st p with
    | error e => simp [buildParts, hbp] at h
    | ok r =>
      obtain ⟨pp, st1⟩ := r
      cases hps : buildParts dl cfg idx st1 ps with
      | error e => simp [buildParts, hbp, hps] at h
      | ok r2 =>
        obtain ⟨pps2, st2⟩ := r2
        simp [buildParts, hbp, hps] at h
        rw [← h.1]
        exact List.Forall₂.cons (buildPart_shape dl cfg idx st st1 p pp hbp)
          (ih st1 st2 pps2 hps)

theorem buildFrom_shape (dl : ImageDownloader) (cfg : ImageConfig)
    (ms : List PromptMessage) :
    ∀ (idx : Nat) (st sta : RegState) (pms : List PayloadMessage),
      buildFrom dl cfg idx st ms = .ok (pms, sta) →
      List.Forall₂ msgShape ms pms := by
  induction ms with
  | nil =>
    intro idx st sta pms h
    simp [buildFrom] at h
    rw [h.1]
    exact List.Forall₂.nil
  | cons m ms ih =>
    intro idx st sta pms h
    cases hbp : buildParts dl cfg idx st m.parts with
    | error e => simp [buildFrom, hbp] at h
    | ok r =>
      obtain ⟨pps, st1⟩ := r
      cases hms : buildFrom dl cfg (idx + 1) st1 ms with
      | error e => simp [buildFrom, hbp, hms] at h
      | ok r2 =>
        obtain ⟨pms2, st2⟩ := r2
        simp [buildFrom, hbp, hms] at h
        rw [← h.1]
        refine List.Forall₂.cons ⟨rfl, ?_⟩ (ih (idx + 1) st1 st2 pms2 hms)
        exact buildParts_shape dl cfg idx m.parts st st1 pps hbp

theorem roles_eq_of_forall₂ (ms : List PromptMessage)
    (pms : List PayloadMessage) (h : List.Forall₂ msgShape ms pms) :
    pms.map PayloadMessage.role = ms.map PromptMessage.role := by
  induction h with
  | nil => rfl
  | cons hp hrest ih => simp [hp.1, ih]

/-- C5: a successful build preserves the caller's message order exactly:
the payload records correspond to the supplied messages pointwise in
order (same role, and each content part keeps its position and kind, text
staying the same text and an image reference becoming inline image
content), so the role sequence of the output equals that of the input. -/
theorem build_preserves_order (p : PicPrompt) (dl : ImageDownloader)
    (st st1 : RegState) (payload : List PayloadMessage)
    (h : p.build dl st = .ok (payload, st1)) :
    List.Forall₂ msgShape p.messages payload
      ∧ payload.map PayloadMessage.role = p.messages.map PromptMessage.role := by
  have hf := buildFrom_shape dl p.config p.messages 0 st st1 payload h
  exact ⟨hf, roles_eq_of_forall₂ p.messages payload hf⟩

/-- Witness for C5: the [system, user(text+image), assistant] example
build preserves the three-entry order with the image embedded at the user
entry's position. -/
theorem build_preserves_order_witness :
    List.Forall₂ msgShape exMsgs exPayload
      ∧ exPayload.map PayloadMessage.role = exMsgs.map PromptMessage.role :=
  build_preserves_order exPrompt exDl ⟨[], []⟩ exWarm exPayload (by rfl)

theorem resolve_miss_error (dl : ImageDownloader) (st : RegState)
    (src : String) (msg : String)
    (hmiss : lookupSrc src st.cache = none)
    (hfail : dl.fetch src (countSrc src st.fetchLog) = .error msg) :
    resolve dl st src
      = (.error (.imageProcessingError src msg),
         { st with fetchLog := st.fetchLog ++ [src] }) := by
  simp [resolve, hmiss, hfail]

theorem buildParts_append_error (dl : ImageDownloader) (cfg : ImageConfig)
    (idx : Nat) (ps1 : List ContentPart) :
    ∀ (ps2 : List ContentPart) (st st1 : RegState) (pps1 : List PayloadPart)
      (e : BuildError),
      buildParts dl cfg idx st ps1 = .ok (pps1, st1) →
      buildParts dl cfg idx st1 ps2 = .error e →
      buildParts dl cfg idx st (ps1 ++ ps2) = .error e := by
  induction ps1 with
  | nil =>
    intro ps2 st st1 pps1 e h1 h2
    simp [buildParts] at h1
    rw [List.nil_append, h1.2]
    exact h2
  | cons p ps ih =>
    intro ps2 st st1 pps1 e h1 h2
    cases hbp : buildPart dl cfg idx st p with
    | error e0 => simp [buildParts, hbp] at h1
    | ok r =>
      obtain ⟨pp, sta⟩ := r
      cases hps : buildParts dl cfg idx sta ps with
      | error e0 => simp [buildParts, hbp, hps] at h1
      | ok r2 =>
        obtain ⟨pps2, stb⟩ := r2
        simp [buildParts, hbp, hps] at h1
        have hrec : buildParts dl cfg idx sta (ps ++ ps2) = .error e := by
          apply ih ps2 sta stb pps2 e hps
          rw [h1.2]
          exact h2
        simp [buildParts, hbp, hrec]

theorem buildFrom_append_error (dl : ImageDownloader) (cfg : ImageConfig)
    (ms1 : List PromptMessage) :
    ∀ (ms2 : List PromptMessage) (idx : Nat) (st st1 : RegState)
      (pl1 : List PayloadMessage) (e : BuildError),
      buildFrom dl cfg idx st ms1 = .ok (pl1, st1) →
      buildFrom dl cfg (idx + ms1.length) st1 ms2 = .error e →
      buildFrom dl cfg idx st (ms1 ++ ms2) = .error e := by
  induction ms1 with
  | nil =>
    intro ms2 idx st st1 pl1 e h1 h2
    simp [buildFrom] at h1
    rw [List.nil_append, h1.2]
    simpa using h2
  | cons m ms ih =>
    intro ms2 idx st st1 pl1 e h1 h2
    cases hbp : buildParts dl cfg idx st m.parts with
    | error e0 => simp [buildFrom, hbp] at h1
    | ok r =>
      obtain ⟨pps, sta⟩ := r
      cases hms : buildFrom dl cfg (idx + 1) sta ms with
      | error e0 => simp [buildFrom, hbp, hms] at h1
      | ok r2 =>
        obtain ⟨pms2, stb⟩ := r2
        simp [buildFrom, hbp, hms] at h1
        have hrec : buildFrom dl cfg (idx + 1) sta (ms ++ ms2) = .error e := by
          apply ih ms2 (idx + 1) sta stb pms2 e hms
          rw [h1.2]
          have : idx + 1 + ms.length = idx + (m :: ms).length := by
            simp [List.length_cons]
            omega
          rw [this]
          exact h2
        simp [buildFrom, hbp, hrec]

/-- C4: an unreachable image source makes `build` fail on the first such
image: when the messages before index `pre.length` build successfully,
the text parts before the image build successfully, and the image's
source is uncached and unreachable, `build` returns an
ImageProcessingError carrying that message's index and the image's
source, and no payload at all (the error side of Except carries no
partial output). -/
theorem build_fails_first_bad_image (dl : ImageDownloader) (cfg : ImageConfig)
    (pre post : List PromptMessage) (role : MessageType)
    (tparts rest : List ContentPart) (src : String) (msg : String)
    (st st1 st2 : RegState) (plpre : List PayloadMessage)
    (pps : List PayloadPart)
    (hpre : buildFrom dl cfg 0 st pre = .ok (plpre, st1))
    (hparts : buildParts dl cfg pre.length st1 tparts = .ok (pps, st2))
    (hmiss : lookupSrc src st2.cache = none)
    (hfail : dl.fetch src (countSrc src st2.fetchLog) = .error msg) :
    (PicPrompt.mk (pre ++ ⟨role, tparts ++ .image src :: rest⟩ :: post) cfg).build dl st
      = .error ⟨pre.length, .imageProcessingError src msg⟩ := by
  have hbadpart : buildPart dl cfg pre.length st2 (.image src)
      = .error ⟨pre.length, .imageProcessingError src msg⟩ := by
    simp [buildPart, resolve_miss_error dl st2 src msg hmiss hfail]
  have hbadparts : buildParts dl cfg pre.length st2 (ContentPart.image src :: rest)
      = .error ⟨pre.length, .imageProcessingError src msg⟩ := by
    simp [buildParts, hbadpart]
  have hmsg : buildParts dl cfg pre.length st1 (tparts ++ ContentPart.image src :: rest)
      = .error ⟨pre.length, .imageProcessingError src msg⟩ :=
    buildParts_append_error dl cfg pre.length tparts (ContentPart.image src :: rest)
      st1 st2 pps _ hparts hbadparts
  have hbadmsg : buildFrom dl cfg (0 + pre.length) st1
      (PromptMessage.mk role (tparts ++ ContentPart.image src :: rest) :: post)
      = .error ⟨pre.length, .imageProcessingError src msg⟩ := by
    rw [Nat.zero_add]
    simp [buildFrom, hmsg]
  exact buildFrom_append_error dl cfg pre
    (PromptMessage.mk role (tparts ++ ContentPart.image src :: rest) :: post)
    0 st st1 plpre _ hpre hbadmsg

/-- A downloader whose source `http://bad` is unreachable. -/
def exBadDl : ImageDownloader :=
  ⟨fun s _ => if s = "http://bad" then .error "unreachable"
    else .ok ([2, 2, 9, 8, 7, 6], "image/png")⟩

/-- Witness for C4: a three-message build whose middle (index 1) user
message references the unreachable source fails with an
ImageProcessingError carrying index 1 and the source. -/
theorem build_fails_first_bad_image_witness :
    (PicPrompt.mk
        ([⟨MessageType.system, [.text "hi"]⟩]
          ++ ⟨MessageType.user, [ContentPart.text "see"] ++ .image "http://bad" :: []⟩
            :: [⟨MessageType.assistant, [.text "later"]⟩]) exCfg).build exBadDl ⟨[], []⟩
      = .error ⟨1, .imageProcessingError "http://bad" "unreachable"⟩ :=
  build_fails_first_bad_image exBadDl exCfg
    [⟨MessageType.system, [.text "hi"]⟩] [⟨MessageType.assistant, [.text "later"]⟩]
    MessageType.user [ContentPart.text "see"] [] "http://bad" "unreachable"
    ⟨[], []⟩ ⟨[], []⟩ ⟨[], []⟩ [⟨MessageType.system, [.text "hi"]⟩]
    [PayloadPart.text "see"] (by rfl) (by rfl) (by rfl) (by rfl)

/-- C6: for an image whose MIME type is accepted (lossless path, no
transcoding) and whose dimensions and byte size are within the configured
limits, `encode_for` succeeds with the base16 text of the raw bytes, and
decoding that text yields exactly the original raw bytes. -/
theorem encode_for_roundtrip (d : ImageData) (cfg : ImageConfig)
    (bytes : List Nat) (mime : String) (img : RawImage)
    (hb : d.raw_bytes = some bytes) (hm : d.mime_type = some mime)
    (hparse : parseImage bytes = some img)
    (hmime : mime ∈ cfg.accepted_mime_types)
    (hw : img.width ≤ cfg.max_dim) (hh : img.height ≤ cfg.max_dim)
    (hsize : bytes.length ≤ cfg.max_bytes)
    (hvalid : ∀ b ∈ bytes, b < 256) :
    d.encode_for cfg = .ok (encodeBytes bytes)
      ∧ decodeBytes (encodeBytes bytes) = some bytes := by
  have htb : img.toBytes = bytes := parseImage_toBytes bytes img hparse
  constructor
  · simp [ImageData.encode_for, hb, hm, hparse, hmime, htb, hw, hh, hsize]
  · exact decode_encode_bytes bytes hvalid

/-- Witness for C6: a concrete 2-by-2 PNG within the example limits
round-trips through `encode_for` and the decoder. -/
theorem encode_for_roundtrip_witness :
    (mkImageData "http://img" [2, 2, 9, 8, 7, 6] "image/png").encode_for exCfg
        = .ok (encodeBytes [2, 2, 9, 8, 7, 6])
      ∧ decodeBytes (encodeBytes [2, 2, 9, 8, 7, 6]) = some [2, 2, 9, 8, 7, 6] :=
  encode_for_roundtrip (mkImageData "http://img" [2, 2, 9, 8, 7, 6] "image/png")
    exCfg [2, 2, 9, 8, 7, 6] "image/png" ⟨2, 2, [9, 8, 7, 6]⟩
    rfl rfl rfl (by decide) (by decide) (by decide) (by decide) (by decide)

theorem downscale_dims_le (img : RawImage) (maxd : Nat) :
    (downscale img maxd).width ≤ maxd ∧ (downscale img maxd).height ≤ maxd := by
  constructor <;> simp [downscale]

theorem downscale_bytes_valid (img : RawImage) (maxd : Nat)
    (hpx : ∀ b ∈ img.pixels, b < 256) (hmaxd : maxd < 256) :
    ∀ b ∈ (downscale img maxd).toBytes, b < 256 := by
  intro b hb
  simp [downscale, RawImage.toBytes] at hb
  rcases hb with hb | hb | hb
  · omega
  · omega
  · exact hpx b (List.take_subset _ _ hb)

/-- C7: an image cached for `src` whose pixel dimensions exceed the
configured maximum: when downscaling is enabled, building a prompt
containing it succeeds and the image appears in the output as the
encoding of the downscaled image, whose dimensions (recoverable by
decoding the output) are at or below the configured limit; when
downscaling is disabled, `build` fails with a ProviderError carrying the
source. -/
theorem build_oversized_image_policy (dl : ImageDownloader) (cfg : ImageConfig)
    (st : RegState) (src : String) (d : ImageData) (role : MessageType)
    (bytes : List Nat) (mime : String) (img : RawImage)
    (hcache : lookupSrc src st.cache = some d) (hdsrc : d.source = src)
    (hb : d.raw_bytes = some bytes) (hm : d.mime_type = some mime)
    (hparse : parseImage bytes = some img)
    (hmime : mime ∈ cfg.accepted_mime_types)
    (hbig : ¬(img.width ≤ cfg.max_dim ∧ img.height ≤ cfg.max_dim))
    (hsize : (downscale img cfg.max_dim).toBytes.length ≤ cfg.max_bytes)
    (hpx : ∀ b ∈ img.pixels, b < 256) (hmaxd : cfg.max_dim < 256) :
    (cfg.allow_downscale = true →
        (PicPrompt.mk [⟨role, [.image src]⟩] cfg).build dl st
            = .ok ([⟨role, [.image (encodeBytes (downscale img cfg.max_dim).toBytes)]⟩], st)
          ∧ decodeBytes (encodeBytes (downscale img cfg.max_dim).toBytes)
              = some (downscale img cfg.max_dim).toBytes
          ∧ (downscale img cfg.max_dim).width ≤ cfg.max_dim
          ∧ (downscale img cfg.max_dim).height ≤ cfg.max_dim)
      ∧ (cfg.allow_downscale = false →
          (PicPrompt.mk [⟨role, [.image src]⟩] cfg).build dl st
              = .error ⟨0, .providerError src "dimensions exceed provider limit"⟩) := by
  have hres := resolve_cached dl st src d hcache
  constructor
  · intro hds
    have henc : d.encode_for cfg
        = .ok (encodeBytes (downscale img cfg.max_dim).toBytes) := by
      simp [ImageData.encode_for, hb, hm, hparse, hmime, hbig, hds, hsize]
    refine ⟨?_, decode_encode_bytes _ (downscale_bytes_valid img cfg.max_dim hpx hmaxd),
      (downscale_dims_le img cfg.max_dim).1, (downscale_dims_le img cfg.max_dim).2⟩
    simp [PicPrompt.build, buildFrom, buildParts, buildPart, hres, henc]
  · intro hds
    have henc : d.encode_for cfg
        = .error (.providerError src "dimensions exceed provider limit") := by
      simp [ImageData.encode_for, hb, hm, hparse, hmime, hbig, hds, hdsrc]
    simp [PicPrompt.build, buildFrom, buildParts, buildPart, hres, henc]

/-- A configuration with a small dimension limit for the oversize example. -/
def exSmallCfg : ImageConfig :=
  { provider := "openai", max_bytes := 100, max_dim := 2,
    accepted_mime_types := ["image/png"], transcode_map := [],
    allow_downscale := true }

/-- A 5-by-1 image exceeding the small dimension limit. -/
def exBigImg : RawImage := ⟨5, 1, [1, 2, 3, 4, 5]⟩

/-- The cached ImageData of the oversized image. -/
def exBigData : ImageData := mkImageData "http://big" [5, 1, 1, 2, 3, 4, 5] "image/png"

/-- A registry already holding the oversized image. -/
def exBigSt : RegState := ⟨[("http://big", exBigData)], []⟩

/-- Witness for C7: the concrete oversized image is downscaled into the
output at or below the limit when downscaling is enabled (and the
disabled branch holds vacuously for this configuration). -/
theorem build_oversized_image_policy_witness :
    (exSmallCfg.allow_downscale = true →
        (PicPrompt.mk [⟨MessageType.user, [.image "http://big"]⟩] exSmallCfg).build exDl exBigSt
            = .ok ([⟨MessageType.user,
                [.image (encodeBytes (downscale exBigImg exSmallCfg.max_dim).toBytes)]⟩], exBigSt)
          ∧ decodeBytes (encodeBytes (downscale exBigImg exSmallCfg.max_dim).toBytes)
              = some (downscale exBigImg exSmallCfg.max_dim).toBytes
          ∧ (downscale exBigImg exSmallCfg.max_dim).width ≤ exSmallCfg.max_dim
          ∧ (downscale exBigImg exSmallCfg.max_dim).height ≤ exSmallCfg.max_dim)
      ∧ (exSmallCfg.allow_downscale = false →
          (PicPrompt.mk [⟨MessageType.user, [.image "http://big"]⟩] exSmallCfg).build exDl exBigSt
              = .error ⟨0, .providerError "http://big" "dimensions exceed provider limit"⟩) :=
  build_oversized_image_policy exDl exSmallCfg exBigSt "http://big" exBigData
    MessageType.user [5, 1, 1, 2, 3, 4, 5] "image/png" exBigImg
    (by rfl) rfl rfl rfl rfl (by decide) (by decide) (by decide) (by decide) (by decide)

/-- Embedded from `src/pic_prompt/__init__.py` (lines 26-39): the
`__all__` export list, in source order. -/
def pic_prompt_all : List String :=
  ["PromptMessage",
   "MessageType",
   "PromptConfig",
   "ImageConfig",
   "PromptBuilderError",
   "ConfigurationError",
   "ProviderError",
   "ImageProcessingError",
   "PicPrompt",
   "ImageRegistry",
   "ImageData",
   "ImageDownloader"]

/-- Embedded from `src/pic_prompt/__init__.py` (lines 12-23): the names
bound by the three import statements, in source order: eight from
`pic_prompt.core`, one from `.pic_prompt`, three from
`pic_prompt.images`. -/
def importedNames : List String :=
  ["PromptMessage", "MessageType", "PromptConfig", "ImageConfig",
   "PromptBuilderError", "ConfigurationError", "ProviderError",
   "ImageProcessingError"]
    ++ ["PicPrompt"]
    ++ ["ImageRegistry", "ImageData", "ImageDownloader"]

/-- C10: the `__all__` list re-exports exactly the names imported in the
module, with no duplicates, twelve in all (the six components and the
four error classes of the taxonomy plus the two configuration objects). -/
theorem all_exports_exact :
    pic_prompt_all = importedNames
      ∧ pic_prompt_all.Nodup
      ∧ pic_prompt_all.length = 12 := by
  refine ⟨rfl, by decide, rfl⟩

/-- Modelled from the Python standard library `importlib.metadata`: the
environment is the list of installed distributions with their versions;
`version` returns the installed version or a PackageNotFoundError. -/
inductive MetadataError where
  | packageNotFoundError (dist : String)
  deriving DecidableEq, Repr

/-- Modelled from `importlib.metadata.version`: look the distribution up
among the installed ones. -/
def metadata_version (env : List (String × String)) (dist : String) :
    Except MetadataError String :=
  match lookupSrc dist env with
  | some v => .ok v
  | none => .error (.packageNotFoundError dist)

/-- The observable result of importing the package: the `__version__`
attribute and the `__all__` export list. -/
structure PackageModule where
  version_attr : String
  all_attr : List String
  deriving DecidableEq, Repr

/-- Embedded from `src/pic_prompt/__init__.py`: module initialization
first evaluates `version("prompt-any")` (line 9) — propagating
PackageNotFoundError when the distribution is absent, before any public
name is bound — and otherwise binds `__version__` and the public names. -/
def importPicPrompt (env : List (String × String)) :
    Except MetadataError PackageModule :=
  match metadata_version env "prompt-any" with
  | .error e => .error e
  | .ok v => .ok ⟨v, pic_prompt_all⟩

/-- C9: in every environment where the distribution `prompt-any` is not
installed, importing the package propagates PackageNotFoundError from the
import-time `version` call, so no public name of the package becomes
usable. -/
theorem importPicPrompt_requires_distribution (env : List (String × String))
    (h : lookupSrc "prompt-any" env = none) :
    importPicPrompt env = .error (.packageNotFoundError "prompt-any") := by
  simp [importPicPrompt, metadata_version, h]

/-- Witness for C9: the empty environment has no `prompt-any`
distribution and the import fails with PackageNotFoundError. -/
theorem importPicPrompt_requires_distribution_witness :
    importPicPrompt [] = .error (.packageNotFoundError "prompt-any") :=
  importPicPrompt_requires_distribution [] rfl

end PicPromptSpec
